import Mathlib

/-!
Verification of the DynamicEQ signal-processing core against its description.

The development shallowly embeds the C++ sources:
  * Source/DSP/DynamicEQBand.h  (BandParams, EnvelopeFollower, DynamicEQBand,
    SpectrumAnalyzer)
  * Source/PluginProcessor.h / PluginEditor.h  (DynamicEQAudioProcessor)
  * UI/SpectrumComponent.h  (curve cache rebuild policy)

Sample values are modelled as rationals.  Transcendental primitives that the
code takes from the platform / JUCE library (dB conversions, exp, sin/cos, the
JUCE IIR coefficient factories, and the IIR filter run itself) are abstracted
as a parameter record `DspPrims`; every theorem below holds for an arbitrary
instantiation of these primitives, so in particular for the real ones.
Where float division by zero would produce a non-finite value (Inf/NaN), the
embedding uses `Option ℚ` with `none` marking the non-finite outcome.
-/

namespace DynamicEQ

/-- Per-channel filter scratch state (the IIR delay line); its contents are
only ever threaded through the abstract `filterRun` primitive. -/
abbrev FilterMem := List ℚ

/-- A multichannel audio block: outer list = channels, inner list = samples. -/
abbrev Buffer := List (List ℚ)

/-- Filter type selector (enum class FilterType in BandParams). -/
inductive FilterType where
  | LowShelf | Peak | HighShelf | LowCut | HighCut | Notch | BandPass
  deriving DecidableEq

/-- Parameters for a single Dynamic EQ band (struct BandParams).
The source field `ratio` is called `ratioVal` here. -/
structure BandParams where
  frequency : ℚ := 1000
  gain : ℚ := 0
  q : ℚ := 1
  threshold : ℚ := -20
  ratioVal : ℚ := 4
  attackMs : ℚ := 10
  releaseMs : ℚ := 100
  enabled : Bool := true
  dynamicOn : Bool := true
  type : FilterType := .Peak
  deriving DecidableEq

/-- EnvelopeFollower state (class EnvelopeFollower). -/
structure EnvState where
  sampleRate : ℚ := 44100
  attackCoeff : ℚ := 0
  releaseCoeff : ℚ := 0
  envelope : ℚ := 0
  deriving DecidableEq

/-- A biquad coefficient set (b0,b1,b2,a0,a1,a2).  A `none` field records that
the float computation produced a non-finite value (Inf or NaN). -/
structure Coeffs where
  b0 : Option ℚ
  b1 : Option ℚ
  b2 : Option ℚ
  a0 : Option ℚ
  a1 : Option ℚ
  a2 : Option ℚ
  deriving DecidableEq

/-- All six coefficients of the set are finite. -/
def Coeffs.finite (c : Coeffs) : Prop :=
  c.b0.isSome ∧ c.b1.isSome ∧ c.b2.isSome ∧ c.a0.isSome ∧ c.a1.isSome ∧ c.a2.isSome

instance (c : Coeffs) : Decidable c.finite := by
  unfold Coeffs.finite; infer_instance

/-- The neutral / pass-through coefficient set (y = x). -/
def neutralCoeffs : Coeffs :=
  { b0 := some 1, b1 := some 0, b2 := some 0, a0 := some 1, a1 := some 0, a2 := some 0 }

/-- Division that records a float division by zero (Inf/NaN) as `none`. -/
def checkedDiv (a b : ℚ) : Option ℚ := if b = 0 then none else some (a / b)

/-- Abstract numeric primitives supplied by the platform / JUCE library.
`gainToDecibels g m` and `decibelsToGain d m` take the minus-infinity floor as
second argument, mirroring the juce::Decibels signatures. -/
structure DspPrims where
  gainToDecibels : ℚ → ℚ → ℚ
  decibelsToGain : ℚ → ℚ → ℚ
  expQ : ℚ → ℚ
  cosQ : ℚ → ℚ
  sinQ : ℚ → ℚ
  twoPi : ℚ
  makeLowShelf : ℚ → ℚ → ℚ → ℚ → Coeffs
  makePeakFilter : ℚ → ℚ → ℚ → ℚ → Coeffs
  makeHighShelf : ℚ → ℚ → ℚ → ℚ → Coeffs
  makeHighPass : ℚ → ℚ → ℚ → Coeffs
  makeLowPass : ℚ → ℚ → ℚ → Coeffs
  makeBandPass : ℚ → ℚ → ℚ → Coeffs
  filterRun : Coeffs → FilterMem → Buffer → FilterMem × Buffer

/-- EnvelopeFollower::setAttackRelease. -/
def setAttackRelease (P : DspPrims) (e : EnvState) (attackMs releaseMs : ℚ) : EnvState :=
  if e.sampleRate ≤ 0 then e
  else
    { e with
      attackCoeff := P.expQ (-1 / (e.sampleRate * attackMs * (1 / 1000))),
      releaseCoeff := P.expQ (-1 / (e.sampleRate * releaseMs * (1 / 1000))) }

/-- EnvelopeFollower::process: one smoothing step; the asymmetric coefficient
choice (attack when rising, release otherwise) is taken from the source. -/
def envStep (e : EnvState) (inputLevel : ℚ) : EnvState :=
  let coeff := if e.envelope < inputLevel then e.attackCoeff else e.releaseCoeff
  { e with envelope := coeff * e.envelope + (1 - coeff) * inputLevel }

/-- Runtime state of one DynamicEQBand.  The source's `filters` array has
exactly one entry (std::array<Filter, 1>), so a single coefficient set and a
single delay-line blob represent it.  The sidechain band-pass filter exists in
the source but is never used to process audio; only its coefficient set is
kept. -/
structure BandState where
  params : BandParams
  sampleRate : ℚ
  env : EnvState
  coeffs : Coeffs
  mem : FilterMem
  sidechainCoeffs : Coeffs
  gainReductionDB : ℚ

/-- The coefficient set built by the switch statement in
DynamicEQBand::updateFilterCoefficients, as a function of the filter type,
sample rate, frequency, Q and gain (dB).  The frequency and Q are used
exactly as given — the source applies no clamping to either.  The Notch case
is computed explicitly in the source; all other cases delegate to the JUCE
coefficient factories (abstract here). -/
def synthCoeffs (P : DspPrims) (ty : FilterType) (sr f q gainDB : ℚ) : Coeffs :=
  match ty with
  | .LowShelf => P.makeLowShelf sr f q (P.decibelsToGain gainDB (-100))
  | .Peak => P.makePeakFilter sr f q (P.decibelsToGain gainDB (-100))
  | .HighShelf => P.makeHighShelf sr f q (P.decibelsToGain gainDB (-100))
  | .LowCut => P.makeHighPass sr f q
  | .HighCut => P.makeLowPass sr f q
  | .Notch =>
      let w0 := P.twoPi * f / sr
      let cosW0 := P.cosQ w0
      let alpha := checkedDiv (P.sinQ w0) (2 * q)
      { b0 := some 1, b1 := some (-2 * cosW0), b2 := some 1,
        a0 := alpha.map (fun a => 1 + a),
        a1 := some (-2 * cosW0),
        a2 := alpha.map (fun a => 1 - a) }
  | .BandPass => P.makeBandPass sr f q

/-- DynamicEQBand::updateFilterCoefficients: recompute the biquad from the
current params at the given (possibly dynamically reduced) gain in dB.
Returns the state unchanged (previous coefficients kept) when the stored
sample rate is ≤ 0. -/
def updateFilterCoefficients (P : DspPrims) (st : BandState) (gainDB : ℚ) : BandState :=
  if st.sampleRate ≤ 0 then st
  else
    { st with
      coeffs := synthCoeffs P st.params.type st.sampleRate st.params.frequency
                  st.params.q gainDB }

/-- DynamicEQBand::updateSidechainFilter. -/
def updateSidechainFilter (P : DspPrims) (st : BandState) : BandState :=
  if st.sampleRate ≤ 0 then st
  else { st with sidechainCoeffs := P.makeBandPass st.sampleRate st.params.frequency st.params.q }

/-- DynamicEQBand::updateParams: store the params, derive the envelope
coefficients, recompute the static-gain biquad, refresh the sidechain. -/
def updateParams (P : DspPrims) (p : BandParams) (st : BandState) : BandState :=
  let st1 := { st with params := p, env := setAttackRelease P st.env p.attackMs p.releaseMs }
  let st2 := updateFilterCoefficients P st1 p.gain
  updateSidechainFilter P st2

/-- Block peak level: max absolute sample across all channels and frames,
starting from 0 (DynamicEQBand::process, sidechain level loop). -/
def peakOf (buf : Buffer) : ℚ :=
  buf.foldl (fun acc ch => ch.foldl (fun a x => max a |x|) acc) 0

/-- DynamicEQBand::process. -/
def bandProcess (P : DspPrims) (st : BandState) (buf : Buffer) : BandState × Buffer :=
  if st.params.enabled = false then
    ({ st with gainReductionDB := 0 }, buf)
  else if st.params.dynamicOn = false then
    let fr := P.filterRun st.coeffs st.mem buf
    ({ st with mem := fr.1, gainReductionDB := 0 }, fr.2)
  else
    let peakLevel := peakOf buf
    let levelDB := P.gainToDecibels peakLevel (-100)
    let env1 := envStep st.env (P.decibelsToGain levelDB (-100))
    let envDB := P.gainToDecibels env1.envelope (-100)
    let reductionDB :=
      if st.params.threshold < envDB then
        (envDB - st.params.threshold) - (envDB - st.params.threshold) / st.params.ratioVal
      else 0
    let st1 := { st with env := env1, gainReductionDB := reductionDB }
    let st2 := updateFilterCoefficients P st1 (st.params.gain - reductionDB)
    let fr := P.filterRun st2.coeffs st2.mem buf
    ({ st2 with mem := fr.1 }, fr.2)

/-- The envelope value, in dB, that `bandProcess` detects for a given block:
block peak → dB (floor −100) → back to linear → one envelope-follower step →
dB (floor −100).  This is exactly the chain of lines 144–147 of the source. -/
def detectedEnvelopeDB (P : DspPrims) (st : BandState) (buf : Buffer) : ℚ :=
  P.gainToDecibels
    (envStep st.env (P.decibelsToGain (P.gainToDecibels (peakOf buf) (-100)) (-100))).envelope
    (-100)

/-- The spec's compressor transfer law over the excess above threshold. -/
def reductionLaw (envDB thr r : ℚ) : ℚ :=
  if thr < envDB then (envDB - thr) - (envDB - thr) / r else 0

@[simp] theorem updateFC_gainReductionDB (P : DspPrims) (st : BandState) (g : ℚ) :
    (updateFilterCoefficients P st g).gainReductionDB = st.gainReductionDB := by
  unfold updateFilterCoefficients; split <;> rfl

@[simp] theorem updateFC_mem (P : DspPrims) (st : BandState) (g : ℚ) :
    (updateFilterCoefficients P st g).mem = st.mem := by
  unfold updateFilterCoefficients; split <;> rfl

@[simp] theorem updateFC_params (P : DspPrims) (st : BandState) (g : ℚ) :
    (updateFilterCoefficients P st g).params = st.params := by
  unfold updateFilterCoefficients; split <;> rfl

@[simp] theorem updateFC_env (P : DspPrims) (st : BandState) (g : ℚ) :
    (updateFilterCoefficients P st g).env = st.env := by
  unfold updateFilterCoefficients; split <;> rfl

@[simp] theorem updateFC_sampleRate (P : DspPrims) (st : BandState) (g : ℚ) :
    (updateFilterCoefficients P st g).sampleRate = st.sampleRate := by
  unfold updateFilterCoefficients; split <;> rfl

/-- In the dynamic branch, the published gain reduction is the compressor law
applied to the detected envelope level in dB. -/
theorem gainReduction_formula (P : DspPrims) (st : BandState) (buf : Buffer)
    (hen : st.params.enabled = true) (hdy : st.params.dynamicOn = true) :
    (bandProcess P st buf).1.gainReductionDB
      = reductionLaw (detectedEnvelopeDB P st buf) st.params.threshold st.params.ratioVal := by
  simp [bandProcess, hen, hdy, detectedEnvelopeDB, reductionLaw]

theorem reductionLaw_nonneg (envDB thr r : ℚ) (hr : 1 ≤ r) :
    0 ≤ reductionLaw envDB thr r := by
  unfold reductionLaw
  split
  · rename_i h
    have hx : (0 : ℚ) ≤ envDB - thr := by linarith
    have := div_le_self hx hr
    linarith
  · exact le_refl 0

theorem reductionLaw_of_le (envDB thr r : ℚ) (h : envDB ≤ thr) :
    reductionLaw envDB thr r = 0 :=
  if_neg (not_lt.mpr h)

/-- Concrete primitives used to instantiate the abstract platform functions in
the witnesses below.  The dB maps are mutually inverse affine maps and the
filter run is the identity. -/
def exPrims : DspPrims where
  gainToDecibels := fun g _ => g - 20
  decibelsToGain := fun d _ => d + 20
  expQ := fun _ => 0
  cosQ := fun _ => 0
  sinQ := fun _ => 1
  twoPi := 6
  makeLowShelf := fun _ _ _ _ => neutralCoeffs
  makePeakFilter := fun _ _ _ g =>
    { b0 := some g, b1 := some 0, b2 := some 0, a0 := some 1, a1 := some 0, a2 := some 0 }
  makeHighShelf := fun _ _ _ _ => neutralCoeffs
  makeHighPass := fun _ _ _ => neutralCoeffs
  makeLowPass := fun _ _ _ => neutralCoeffs
  makeBandPass := fun _ _ _ => neutralCoeffs
  filterRun := fun _ m b => (m, b)

/-- A band in its default configuration (enabled, dynamic, threshold −20,
compression 4:1), with quiescent envelope and pass-through coefficients. -/
def exBand : BandState :=
  { params := {}, sampleRate := 44100,
    env := { sampleRate := 44100, attackCoeff := 0, releaseCoeff := 0, envelope := 0 },
    coeffs := neutralCoeffs, mem := [], sidechainCoeffs := neutralCoeffs,
    gainReductionDB := 0 }

/-- A two-channel block whose peak absolute level is 10. -/
def exBuf : Buffer := [[10, -3], [2]]

/-- C1: for an enabled band with dynamicOn = true, process publishes
reduction = excess − excess/ratio with excess = envelopeDB − threshold when
the detected envelope in dB exceeds the threshold, and 0 otherwise; with
threshold −20 dB and ratio 4, a detected envelope of −10 dB publishes exactly
7.5 dB of gain reduction. -/
theorem bandProcess_gainReduction_eq_reductionLaw (P : DspPrims) (st : BandState)
    (buf : Buffer) (hen : st.params.enabled = true) (hdy : st.params.dynamicOn = true) :
    (bandProcess P st buf).1.gainReductionDB
        = reductionLaw (detectedEnvelopeDB P st buf) st.params.threshold st.params.ratioVal
      ∧ (st.params.threshold = -20 → st.params.ratioVal = 4 →
          detectedEnvelopeDB P st buf = -10 →
          (bandProcess P st buf).1.gainReductionDB = 15 / 2) := by
  have h1 := gainReduction_formula P st buf hen hdy
  refine ⟨h1, fun hthr hr henv => ?_⟩
  rw [h1, hthr, hr, henv]
  norm_num [reductionLaw]

/-- Witness for C1: with the concrete primitives the detected envelope for
`exBuf` is exactly −10 dB and the default band publishes 7.5 dB. -/
theorem bandProcess_gainReduction_eq_reductionLaw_witness :
    (bandProcess exPrims exBand exBuf).1.gainReductionDB = 15 / 2 :=
  (bandProcess_gainReduction_eq_reductionLaw exPrims exBand exBuf rfl rfl).2 rfl rfl
    (by simp only [detectedEnvelopeDB, exPrims, exBand, exBuf, envStep, peakOf,
          List.foldl_cons, List.foldl_nil]
        norm_num)

/-- C3: with ratio ≥ 1 the published gain reduction is nonnegative after
every call to process (disabled, static, or dynamic), and it is 0 whenever
the detected envelope in dB does not exceed the threshold. -/
theorem bandProcess_gainReduction_nonneg (P : DspPrims) (st : BandState) (buf : Buffer)
    (hr : 1 ≤ st.params.ratioVal) :
    0 ≤ (bandProcess P st buf).1.gainReductionDB ∧
      (detectedEnvelopeDB P st buf ≤ st.params.threshold →
        (bandProcess P st buf).1.gainReductionDB = 0) := by
  by_cases hen : st.params.enabled = true
  · by_cases hdy : st.params.dynamicOn = true
    · have h1 := gainReduction_formula P st buf hen hdy
      rw [h1]
      exact ⟨reductionLaw_nonneg _ _ _ hr,
        fun h => reductionLaw_of_le _ _ _ h⟩
    · have hdy' : st.params.dynamicOn = false := by
        cases h : st.params.dynamicOn <;> simp_all
      simp [bandProcess, hen, hdy']
  · have hen' : st.params.enabled = false := by
      cases h : st.params.enabled <;> simp_all
    simp [bandProcess, hen']

/-- Witness for C3 at the default band and the concrete block. -/
theorem bandProcess_gainReduction_nonneg_witness :
    0 ≤ (bandProcess exPrims exBand exBuf).1.gainReductionDB ∧
      (detectedEnvelopeDB exPrims exBand exBuf ≤ exBand.params.threshold →
        (bandProcess exPrims exBand exBuf).1.gainReductionDB = 0) :=
  bandProcess_gainReduction_nonneg exPrims exBand exBuf (by norm_num [exBand])

/-- A band identical to `exBand` but disabled. -/
def exBandOff : BandState := { exBand with params := { enabled := false } }

/-- C4: a disabled band leaves every sample of every channel unchanged and
publishes 0 as its gain reduction. -/
theorem bandProcess_disabled (P : DspPrims) (st : BandState) (buf : Buffer)
    (h : st.params.enabled = false) :
    (bandProcess P st buf).2 = buf ∧ (bandProcess P st buf).1.gainReductionDB = 0 := by
  simp [bandProcess, h]

/-- Witness for C4 on the disabled band. -/
theorem bandProcess_disabled_witness :
    (bandProcess exPrims exBandOff exBuf).2 = exBuf ∧
      (bandProcess exPrims exBandOff exBuf).1.gainReductionDB = 0 :=
  bandProcess_disabled exPrims exBandOff exBuf rfl

@[simp] theorem updateFC_coeffs (P : DspPrims) (st : BandState) (g : ℚ) :
    (updateFilterCoefficients P st g).coeffs
      = if st.sampleRate ≤ 0 then st.coeffs
        else synthCoeffs P st.params.type st.sampleRate st.params.frequency st.params.q g := by
  unfold updateFilterCoefficients; split <;> rfl

@[simp] theorem updateSC_coeffs (P : DspPrims) (st : BandState) :
    (updateSidechainFilter P st).coeffs = st.coeffs := by
  unfold updateSidechainFilter; split <;> rfl

@[simp] theorem updateSC_mem (P : DspPrims) (st : BandState) :
    (updateSidechainFilter P st).mem = st.mem := by
  unfold updateSidechainFilter; split <;> rfl

@[simp] theorem updateSC_params (P : DspPrims) (st : BandState) :
    (updateSidechainFilter P st).params = st.params := by
  unfold updateSidechainFilter; split <;> rfl

@[simp] theorem updateSC_env (P : DspPrims) (st : BandState) :
    (updateSidechainFilter P st).env = st.env := by
  unfold updateSidechainFilter; split <;> rfl

@[simp] theorem updateSC_sampleRate (P : DspPrims) (st : BandState) :
    (updateSidechainFilter P st).sampleRate = st.sampleRate := by
  unfold updateSidechainFilter; split <;> rfl

@[simp] theorem updateSC_gainReductionDB (P : DspPrims) (st : BandState) :
    (updateSidechainFilter P st).gainReductionDB = st.gainReductionDB := by
  unfold updateSidechainFilter; split <;> rfl

@[simp] theorem updateParams_params (P : DspPrims) (p : BandParams) (st : BandState) :
    (updateParams P p st).params = p := by
  simp [updateParams]

@[simp] theorem updateParams_sampleRate (P : DspPrims) (p : BandParams) (st : BandState) :
    (updateParams P p st).sampleRate = st.sampleRate := by
  simp [updateParams]

@[simp] theorem updateParams_mem (P : DspPrims) (p : BandParams) (st : BandState) :
    (updateParams P p st).mem = st.mem := by
  simp [updateParams]

@[simp] theorem updateParams_env (P : DspPrims) (p : BandParams) (st : BandState) :
    (updateParams P p st).env = setAttackRelease P st.env p.attackMs p.releaseMs := by
  simp [updateParams]

@[simp] theorem updateParams_coeffs (P : DspPrims) (p : BandParams) (st : BandState) :
    (updateParams P p st).coeffs
      = if st.sampleRate ≤ 0 then st.coeffs
        else synthCoeffs P p.type st.sampleRate p.frequency p.q p.gain := by
  simp [updateParams]

/-- C5: for an enabled band configured (via updateParams) with the same
BandParams up to the dynamicOn flag and the same starting filter state, if
the detected (smoothed) envelope in dB cannot exceed the threshold — as when
the threshold sits above the maximum possible input level — then dynamic-mode
processing produces exactly the same output samples as static-mode
processing. -/
theorem bandProcess_dynamic_eq_static_below_threshold (P : DspPrims) (p : BandParams)
    (st0 : BandState) (buf : Buffer) (hen : p.enabled = true)
    (hthr : detectedEnvelopeDB P (updateParams P { p with dynamicOn := true } st0) buf
              ≤ p.threshold) :
    (bandProcess P (updateParams P { p with dynamicOn := true } st0) buf).2
      = (bandProcess P (updateParams P { p with dynamicOn := false } st0) buf).2 := by
  simp only [detectedEnvelopeDB, updateParams_env, updateParams_params] at hthr
  by_cases hsr : st0.sampleRate ≤ 0 <;>
    simp [bandProcess, hen, hsr, not_lt.mpr hthr]

/-- Witness for C5: the default band with threshold raised to 100 dB, on the
concrete block (detected envelope −10 dB ≤ 100 dB). -/
theorem bandProcess_dynamic_eq_static_below_threshold_witness :
    (bandProcess exPrims
        (updateParams exPrims { threshold := 100, dynamicOn := true } exBand) exBuf).2
      = (bandProcess exPrims
          (updateParams exPrims { threshold := 100, dynamicOn := false } exBand) exBuf).2 := by
  have h := bandProcess_dynamic_eq_static_below_threshold exPrims
    { threshold := 100 } exBand exBuf rfl
    (by simp only [detectedEnvelopeDB, updateParams_env, updateParams_params,
          setAttackRelease, envStep, peakOf, exPrims, exBand, exBuf,
          List.foldl_cons, List.foldl_nil]
        norm_num)
  exact h

/-- A Notch band whose Q is zero: the source divides by 2·Q with no clamping. -/
def exNotchBand : BandState := { exBand with params := { type := .Notch, q := 0 } }

/-- Counterexample to C6: coefficient synthesis applies no clamping to
frequency or Q; for the Notch type with Q = 0 the alpha term divides by zero,
so the produced coefficient set is not finite. -/
theorem synthCoeffs_not_clamped_counterexample :
    0 < exNotchBand.sampleRate ∧
      ¬ ((updateFilterCoefficients exPrims exNotchBand 0).coeffs.finite) := by
  constructor
  · norm_num [exNotchBand, exBand]
  · simp only [updateFC_coeffs, exNotchBand, exBand]
    norm_num [synthCoeffs, checkedDiv, Coeffs.finite]

/-- C6 (amended): coefficient synthesis performs no clamping — the raw
frequency enters the trigonometric argument ω₀ = 2π·f/sr unchanged — and for
the Notch type (the case computed in this repository) the produced
coefficients are finite provided Q ≠ 0; at Q = 0 they are not (see the
counterexample). -/
theorem synthCoeffs_notch_unclamped (P : DspPrims) (st : BandState) (g : ℚ)
    (hsr : 0 < st.sampleRate) (hty : st.params.type = .Notch) :
    (st.params.q ≠ 0 → ((updateFilterCoefficients P st g).coeffs).finite)
      ∧ (updateFilterCoefficients P st g).coeffs.b1
          = some (-2 * P.cosQ (P.twoPi * st.params.frequency / st.sampleRate)) := by
  have hsr' : ¬ st.sampleRate ≤ 0 := not_le.mpr hsr
  constructor
  · intro hq
    have h2q : (2 : ℚ) * st.params.q ≠ 0 := by
      simpa using hq
    simp [updateFC_coeffs, hsr', hty, synthCoeffs, checkedDiv, h2q, Coeffs.finite]
  · simp [updateFC_coeffs, hsr', hty, synthCoeffs]

/-- Witness for the amended C6 at a concrete Notch band with Q = 1. -/
theorem synthCoeffs_notch_unclamped_witness :
    ((( { exBand with params := { type := .Notch } } : BandState).params.q ≠ 0 →
        ((updateFilterCoefficients exPrims { exBand with params := { type := .Notch } } 0).coeffs).finite)
      ∧ (updateFilterCoefficients exPrims { exBand with params := { type := .Notch } } 0).coeffs.b1
          = some (-2 * exPrims.cosQ (exPrims.twoPi * 1000 / 44100))) := by
  have h := synthCoeffs_notch_unclamped exPrims { exBand with params := { type := .Notch } } 0
    (by norm_num [exBand]) rfl
  exact h

/-- A band whose stored sample rate is degenerate (0) but whose previous
coefficient set is not the neutral one. -/
def exStaleBand : BandState :=
  { exBand with
    sampleRate := 0
    coeffs := { b0 := some 2, b1 := some 0, b2 := some 0,
                a0 := some 1, a1 := some 0, a2 := some 0 } }

/-- Counterexample to C7: with sample rate ≤ 0 the synthesis does NOT produce
a neutral (pass-through) coefficient set — it returns early and the filter
keeps whatever coefficients it had before, here a non-neutral set. -/
theorem degenerate_sampleRate_not_neutral :
    exStaleBand.sampleRate ≤ 0 ∧
      (updateFilterCoefficients exPrims exStaleBand 5).coeffs ≠ neutralCoeffs := by
  constructor
  · norm_num [exStaleBand, exBand]
  · simp only [updateFC_coeffs, exStaleBand, exBand]
    norm_num [neutralCoeffs]

/-- C7 (amended): whenever the stored sample rate is ≤ 0, coefficient
synthesis is a no-op — the band state (in particular its coefficient set) is
left exactly as it was, so no NaN/Inf coefficients are produced from the
degenerate sample rate. -/
theorem updateFC_degenerate_sampleRate_noop (P : DspPrims) (st : BandState) (g : ℚ)
    (h : st.sampleRate ≤ 0) : updateFilterCoefficients P st g = st := by
  unfold updateFilterCoefficients
  exact if_pos h

/-- Witness for the amended C7 on the stale band. -/
theorem updateFC_degenerate_sampleRate_noop_witness :
    updateFilterCoefficients exPrims exStaleBand 5 = exStaleBand :=
  updateFC_degenerate_sampleRate_noop exPrims exStaleBand 5 (by norm_num [exStaleBand, exBand])

/-! ## SpectrumAnalyzer (SpectrumAnalyzer.h) -/

/-- SpectrumAnalyzer::fftOrder (12, i.e. a 4096-point FFT). -/
def fftOrder : ℕ := 12

/-- SpectrumAnalyzer::fftSize = 1 << fftOrder = 4096. -/
def fftSize : ℕ := 2 ^ fftOrder

/-- SpectrumAnalyzer::hopSize. -/
def hopSize : ℕ := 512

theorem fftSize_eq : fftSize = 4096 := rfl

theorem hopSize_eq : hopSize = 512 := rfl

/-- Producer-side state of a SpectrumAnalyzer.  The circular buffer and the
snapshot buffer are modelled as functions from slot index; the source only
ever reads slots below `fftSize` (resp. writes the first `fftSize` snapshot
slots, the upper half of fftData being FFT workspace). -/
structure SAState where
  circularBuffer : ℕ → ℚ
  fftData : ℕ → ℚ
  writePos : ℕ
  hopCounter : ℕ
  newFFTDataAvailable : Bool

/-- The analyzer state established by the SpectrumAnalyzer constructor. -/
def initSA : SAState :=
  { circularBuffer := fun _ => 0, fftData := fun _ => 0, writePos := 0, hopCounter := 0,
    newFFTDataAvailable := false }

/-- The body of the per-sample loop of SpectrumAnalyzer::pushSamples: write
the sample at writePos, advance writePos with the power-of-two bitmask, bump
the hop counter; when it reaches hopSize, reset it, copy the fftSize most
recent samples (starting at the oldest slot, which writePos now points to)
into the snapshot buffer, and raise the new-data flag. -/
def pushSample (st : SAState) (s : ℚ) : SAState :=
  let circ := Function.update st.circularBuffer st.writePos s
  let wp := (st.writePos + 1) &&& (fftSize - 1)
  let hc := st.hopCounter + 1
  if hopSize ≤ hc then
    { circularBuffer := circ
      writePos := wp
      hopCounter := 0
      fftData := fun j => if j < fftSize then circ ((wp + j) &&& (fftSize - 1)) else st.fftData j
      newFFTDataAvailable := true }
  else
    { st with circularBuffer := circ, writePos := wp, hopCounter := hc }

/-- SpectrumAnalyzer::pushSamples: the for-loop over the incoming samples. -/
def pushSamples (st : SAState) (xs : List ℚ) : SAState :=
  match xs with
  | [] => st
  | x :: r => pushSamples (pushSample st x) r

/-- The sample stream zero-padded on the left by one full window, so that
index `hs.length + j` (0 ≤ j < fftSize) walks the fftSize most recent
samples oldest to newest. -/
def paddedGet (hs : List ℚ) (i : ℕ) : ℚ :=
  (List.replicate fftSize (0 : ℚ) ++ hs).getD i 0

/-- The analyzer state faithfully represents the history `hs` of all samples
pushed since construction: the write cursor and hop counter are the history
length modulo fftSize resp. hopSize, and the circular buffer holds the
fftSize most recent samples (zero-padded at the start of time). -/
def Represents (hs : List ℚ) (st : SAState) : Prop :=
  st.writePos = hs.length % fftSize ∧
  st.hopCounter = hs.length % hopSize ∧
  ∀ j, j < fftSize →
    st.circularBuffer ((hs.length + j) % fftSize) = paddedGet hs (hs.length + j)

/-- The source's bitmask wraparound `x & (fftSize - 1)` equals `x % fftSize`. -/
theorem land_mask (x : ℕ) : x &&& (fftSize - 1) = x % fftSize := by
  have h : fftSize = 2 ^ 12 := rfl
  rw [h]
  exact Nat.and_pow_two_sub_one_eq_mod x 12

theorem paddedGet_append_left (hs : List ℚ) (s : ℚ) (i : ℕ) (h : i < fftSize + hs.length) :
    paddedGet (hs ++ [s]) i = paddedGet hs i := by
  unfold paddedGet
  rw [← List.append_assoc]
  exact List.getD_append _ _ _ _ (by simpa using h)

theorem paddedGet_append_last (hs : List ℚ) (s : ℚ) :
    paddedGet (hs ++ [s]) (fftSize + hs.length) = s := by
  unfold paddedGet
  rw [← List.append_assoc]
  rw [List.getD_append_right _ _ _ _ (by simp)]
  simp

/-- One pushed sample extends the represented history by that sample. -/
theorem pushSample_represents (hs : List ℚ) (st : SAState) (s : ℚ)
    (h : Represents hs st) : Represents (hs ++ [s]) (pushSample st s) := by
  have hwp : st.writePos = hs.length % 4096 := by
    have := h.1; rwa [fftSize_eq] at this
  have hhc : st.hopCounter = hs.length % 512 := by
    have := h.2.1; rwa [hopSize_eq] at this
  have hcirc := h.2.2
  have hlen : (hs ++ [s]).length = hs.length + 1 := by simp
  have hwp' : (st.writePos + 1) &&& (fftSize - 1) = (hs.length + 1) % fftSize := by
    rw [land_mask, fftSize_eq, hwp]
    omega
  have hcirc' : ∀ j, j < fftSize →
      Function.update st.circularBuffer st.writePos s ((hs.length + 1 + j) % fftSize)
        = paddedGet (hs ++ [s]) (hs.length + 1 + j) := by
    intro j hj
    rw [fftSize_eq] at hj
    rcases Nat.lt_or_ge j 4095 with hlt | hge
    · have hne : (hs.length + 1 + j) % fftSize ≠ st.writePos := by
        rw [fftSize_eq, hwp]
        omega
      rw [Function.update_noteq hne]
      have hj1 : j + 1 < fftSize := by rw [fftSize_eq]; omega
      have hstep := hcirc (j + 1) hj1
      have harr : hs.length + (j + 1) = hs.length + 1 + j := by omega
      rw [harr] at hstep
      rw [hstep]
      refine (paddedGet_append_left hs s _ ?_).symm
      rw [fftSize_eq]
      omega
    · have hj' : j = 4095 := by omega
      subst hj'
      have hidx : (hs.length + 1 + 4095) % fftSize = st.writePos := by
        rw [fftSize_eq, hwp]
        omega
      rw [hidx, Function.update_same]
      have harr : hs.length + 1 + 4095 = fftSize + hs.length := by
        rw [fftSize_eq]; omega
      rw [harr, paddedGet_append_last]
  by_cases hcap : hopSize ≤ st.hopCounter + 1
  · refine ⟨?_, ?_, ?_⟩
    · simp only [pushSample, if_pos hcap, hlen]
      exact hwp'
    · simp only [pushSample, if_pos hcap, hlen]
      rw [hopSize_eq]
      rw [hopSize_eq, hhc] at hcap
      omega
    · intro j hj
      simp only [pushSample, if_pos hcap, hlen]
      exact hcirc' j hj
  · refine ⟨?_, ?_, ?_⟩
    · simp only [pushSample, if_neg hcap, hlen]
      exact hwp'
    · simp only [pushSample, if_neg hcap, hlen]
      rw [hopSize_eq, hhc]
      rw [hopSize_eq, hhc] at hcap
      omega
    · intro j hj
      simp only [pushSample, if_neg hcap, hlen]
      exact hcirc' j hj

/-- Pushing a block extends the represented history by the whole block. -/
theorem pushSamples_represents (xs : List ℚ) :
    ∀ (hs : List ℚ) (st : SAState), Represents hs st →
      Represents (hs ++ xs) (pushSamples st xs) := by
  induction xs with
  | nil => intro hs st h; simpa [pushSamples] using h
  | cons x r ih =>
      intro hs st h
      have h1 := pushSample_represents hs st x h
      have h2 := ih (hs ++ [x]) (pushSample st x) h1
      simpa [pushSamples] using h2

/-- C8: pushSamples consumes its input one sample at a time, each sample
entering the fftSize-slot circular buffer; exactly when a pushed sample's
running count reaches a multiple of hopSize, the fftSize most recent samples
are copied oldest-to-newest into the single snapshot buffer (overwriting any
previous unread snapshot — there is only one slot) and the new-data flag is
raised; on all other samples the snapshot and the flag are untouched. -/
theorem pushSamples_snapshot_spec (hs : List ℚ) (st : SAState) (h : Represents hs st) :
    (∀ xs, Represents (hs ++ xs) (pushSamples st xs))
    ∧ (∀ s,
        ((hs.length + 1) % hopSize = 0 →
          (pushSample st s).newFFTDataAvailable = true ∧
          ∀ j, j < fftSize →
            (pushSample st s).fftData j = paddedGet (hs ++ [s]) (hs.length + 1 + j))
        ∧ ((hs.length + 1) % hopSize ≠ 0 →
          (pushSample st s).fftData = st.fftData ∧
          (pushSample st s).newFFTDataAvailable = st.newFFTDataAvailable)) := by
  have hwp : st.writePos = hs.length % 4096 := by
    have := h.1; rwa [fftSize_eq] at this
  have hhc : st.hopCounter = hs.length % 512 := by
    have := h.2.1; rwa [hopSize_eq] at this
  refine ⟨fun xs => pushSamples_represents xs hs st h, fun s => ⟨?_, ?_⟩⟩
  · intro hmul
    rw [hopSize_eq] at hmul
    have hcap : hopSize ≤ st.hopCounter + 1 := by
      rw [hopSize_eq, hhc]
      omega
    have hrep := pushSample_represents hs st s h
    have hcirc2 := hrep.2.2
    constructor
    · simp [pushSample, if_pos hcap]
    · intro j hj
      have hfd : (pushSample st s).fftData j
          = (pushSample st s).circularBuffer
              ((((st.writePos + 1) &&& (fftSize - 1)) + j) &&& (fftSize - 1)) := by
        simp [pushSample, if_pos hcap, hj]
      rw [hfd]
      have hidx : ((((st.writePos + 1) &&& (fftSize - 1)) + j) &&& (fftSize - 1))
          = ((hs ++ [s]).length + j) % fftSize := by
        rw [land_mask, land_mask, fftSize_eq, hwp]
        simp only [List.length_append, List.length_singleton]
        omega
      rw [hidx]
      have hc2 := hcirc2 j hj
      simp only [List.length_append, List.length_singleton] at hc2 ⊢
      exact hc2
  · intro hmul
    rw [hopSize_eq] at hmul
    have hcap : ¬ hopSize ≤ st.hopCounter + 1 := by
      rw [hopSize_eq, hhc]
      omega
    constructor <;> simp [pushSample, if_neg hcap]

/-- The empty history is represented by the freshly constructed analyzer. -/
theorem Represents_init : Represents [] initSA := by
  refine ⟨rfl, rfl, ?_⟩
  intro j hj
  simp [initSA, paddedGet]

/-- Witness for C8: pushing one sample into a fresh analyzer yields the
one-sample history. -/
theorem pushSamples_snapshot_spec_witness :
    Represents ([] ++ [(1 : ℚ)]) (pushSamples initSA [1]) :=
  (pushSamples_snapshot_spec [] initSA Represents_init).1 [1]

/-! ## DynamicEQAudioProcessor (PluginProcessor.h) -/

/-- DynamicEQAudioProcessor::numBands: the fixed band capacity. -/
def numBands : ℕ := 8

/-- Processor state: the band array, the active band count, and the two
spectrum analyzers. -/
structure EngineState where
  bands : ℕ → BandState
  activeBandCount : ℕ
  preSpectrum : SAState
  postSpectrum : SAState

/-- The mono mix pushed to the spectrum analyzers: each channel added with
gain 1/numChannels into a cleared mono buffer (processBlock). -/
def monoMix (buf : Buffer) : List ℚ :=
  (List.range (buf.headD []).length).map
    (fun i => buf.foldl (fun acc ch => acc + ch.getD i 0 * (1 / (buf.length : ℚ))) 0)

/-- One iteration of the processBlock band loop: updateBandParams(i) followed
by bands[i].process(buffer). -/
def bandStep (P : DspPrims) (p : BandParams) (b : BandState) (buf : Buffer) :
    BandState × Buffer :=
  bandProcess P (updateParams P p b) buf

/-- The processBlock band loop: for i in [0, n) in ascending order, refresh
band i's parameters from the parameter store `apvts` and process the buffer
in place with band i. -/
def processActiveBands (P : DspPrims) (apvts : ℕ → BandParams) (bands : ℕ → BandState) :
    ℕ → Buffer → (ℕ → BandState) × Buffer
  | 0, buf => (bands, buf)
  | n + 1, buf =>
      let r := processActiveBands P apvts bands n buf
      let nb := bandStep P (apvts n) (r.1 n) r.2
      (Function.update r.1 n nb.1, nb.2)

/-- DynamicEQAudioProcessor::processBlock: push the pre-EQ mono mix, run the
active bands in ascending order, push the post-EQ mono mix.  (The stereo
bus configuration makes the extra-output-channel clearing loop vacuous.) -/
def processBlock (P : DspPrims) (apvts : ℕ → BandParams) (st : EngineState) (buf : Buffer) :
    EngineState × Buffer :=
  let pre := pushSamples st.preSpectrum (monoMix buf)
  let r := processActiveBands P apvts st.bands st.activeBandCount buf
  let post := pushSamples st.postSpectrum (monoMix r.2)
  ({ st with bands := r.1, preSpectrum := pre, postSpectrum := post }, r.2)

/-- The series-cascade reference semantics, stated as in the spec: band 0
transforms the input, and band n+1 consumes band n's output; each band is
configured from the parameter store and its own pre-block state. -/
def cascadeOutput (P : DspPrims) (apvts : ℕ → BandParams) (bands : ℕ → BandState) :
    ℕ → Buffer → Buffer
  | 0, buf => buf
  | n + 1, buf =>
      (bandStep P (apvts n) (bands n) (cascadeOutput P apvts bands n buf)).2

/-- The band loop never touches bands at or beyond the processed count. -/
theorem processActiveBands_frame (P : DspPrims) (apvts : ℕ → BandParams)
    (bands : ℕ → BandState) (n : ℕ) (buf : Buffer) :
    ∀ i, n ≤ i → (processActiveBands P apvts bands n buf).1 i = bands i := by
  induction n with
  | zero => intro i _; rfl
  | succ n ih =>
      intro i hi
      have hne : i ≠ n := by omega
      simp only [processActiveBands]
      rw [Function.update_noteq hne]
      exact ih i (by omega)

/-- The buffer produced by the band loop is the series cascade of the
processed prefix. -/
theorem processActiveBands_cascade (P : DspPrims) (apvts : ℕ → BandParams)
    (bands : ℕ → BandState) (n : ℕ) (buf : Buffer) :
    (processActiveBands P apvts bands n buf).2 = cascadeOutput P apvts bands n buf := by
  induction n with
  | zero => rfl
  | succ n ih =>
      simp only [processActiveBands, cascadeOutput]
      rw [processActiveBands_frame P apvts bands n buf n (le_refl n), ih]

/-- C2: processBlock applies exactly the bands 0 .. activeBandCount−1, in
ascending index order, as a series cascade in which band i+1 consumes band
i's output; bands with index ≥ activeBandCount are not applied (their state
is untouched and they do not contribute to the buffer). -/
theorem processBlock_cascades_active_prefix (P : DspPrims) (apvts : ℕ → BandParams)
    (st : EngineState) (buf : Buffer) :
    (processBlock P apvts st buf).2
        = cascadeOutput P apvts st.bands st.activeBandCount buf
      ∧ ∀ i, st.activeBandCount ≤ i →
          (processBlock P apvts st buf).1.bands i = st.bands i := by
  constructor
  · simp only [processBlock]
    exact processActiveBands_cascade P apvts st.bands st.activeBandCount buf
  · intro i hi
    simp only [processBlock]
    exact processActiveBands_frame P apvts st.bands st.activeBandCount buf i hi

/-- A concrete engine: all 8 bands in the default state, 2 of them active. -/
def exEngine : EngineState :=
  { bands := fun _ => exBand, activeBandCount := 2,
    preSpectrum := initSA, postSpectrum := initSA }

/-- Witness for C2 on the concrete engine: cascade equality, and band 7
(beyond the active prefix) is untouched. -/
theorem processBlock_cascades_active_prefix_witness :
    (processBlock exPrims (fun _ => {}) exEngine exBuf).2
        = cascadeOutput exPrims (fun _ => {}) exEngine.bands 2 exBuf
      ∧ (processBlock exPrims (fun _ => {}) exEngine exBuf).1.bands 7 = exEngine.bands 7 := by
  have h := processBlock_cascades_active_prefix exPrims (fun _ => {}) exEngine exBuf
  exact ⟨h.1, h.2 7 (by norm_num [exEngine])⟩

/-- DynamicEQAudioProcessor::getBandGainReduction: bounds-checked accessor
over a C++ int index. -/
def getBandGainReduction (st : EngineState) (bandIndex : ℤ) : ℚ :=
  if 0 ≤ bandIndex ∧ bandIndex < (numBands : ℤ) then
    (st.bands bandIndex.toNat).gainReductionDB
  else 0

/-- C10: for every index outside [0, numBands) the accessor returns 0
without reading any band's state, so it is total over all integer indices. -/
theorem getBandGainReduction_total (st : EngineState) (i : ℤ)
    (h : i < 0 ∨ (numBands : ℤ) ≤ i) : getBandGainReduction st i = 0 := by
  unfold getBandGainReduction
  rw [if_neg]
  rintro ⟨h1, h2⟩
  rcases h with h | h <;> omega

/-- Witness for C10 at index −3. -/
theorem getBandGainReduction_total_witness :
    getBandGainReduction exEngine (-3) = 0 :=
  getBandGainReduction_total exEngine (-3) (Or.inl (by norm_num))

/-! ## SpectrumComponent curve cache (SpectrumComponent.h) -/

/-- The integer index stored for a band's filter type (the raw value of the
choice parameter; updateBandParams casts the same index to FilterType). -/
def typeIndex : FilterType → ℤ
  | .LowShelf => 0
  | .Peak => 1
  | .HighShelf => 2
  | .LowCut => 3
  | .HighCut => 4
  | .Notch => 5
  | .BandPass => 6

/-- struct BandSnapshot of SpectrumComponent, with the source's zero/false
defaults. -/
structure CurveBandSnapshot where
  freq : ℚ := 0
  gain : ℚ := 0
  q : ℚ := 0
  gr : ℚ := 0
  type : ℤ := 0
  enabled : Bool := false
  dynamic : Bool := false
  deriving DecidableEq

/-- The snapshot checkAndUpdateCurve builds for band i from the parameter
store `ps` and the published gain reductions `grOf`: the gr field is the
band's gain reduction when the band is dynamic, else 0. -/
def makeSnapshot (ps : ℕ → BandParams) (grOf : ℕ → ℚ) (i : ℕ) : CurveBandSnapshot :=
  { freq := (ps i).frequency
    gain := (ps i).gain
    q := (ps i).q
    type := typeIndex (ps i).type
    enabled := (ps i).enabled
    dynamic := (ps i).dynamicOn
    gr := if (ps i).dynamicOn then grOf i else 0 }

/-- The change test of checkAndUpdateCurve: any tracked discrete field
differs exactly, or the gain-reduction field differs by more than 0.05 dB. -/
def snapDiffers (snap last : CurveBandSnapshot) : Bool :=
  decide (snap.freq ≠ last.freq) || decide (snap.gain ≠ last.gain) ||
  decide (snap.q ≠ last.q) || decide (snap.type ≠ last.type) ||
  decide (snap.enabled ≠ last.enabled) || decide (snap.dynamic ≠ last.dynamic) ||
  decide ((1 : ℚ) / 20 < |snap.gr - last.gr|)

/-- SpectrumComponent state relevant to the curve cache. -/
structure CompState where
  lastSnapshots : ℕ → CurveBandSnapshot
  lastActiveBandCount : ℤ
  curveNeedsUpdate : Bool
  cachedBandMagnitudes : ℕ → ℕ → ℚ
  cachedTotalMagnitude : ℕ → ℚ
  curveFrequencies : ℕ → ℚ

/-- The per-band loop of checkAndUpdateCurve over bands [0, n): rebuild the
snapshot, and if it differs from the stored one beyond tolerance, record it
and mark a change. -/
def snapshotScan (ps : ℕ → BandParams) (grOf : ℕ → ℚ) :
    ℕ → CompState → Bool → CompState × Bool
  | 0, st, changed => (st, changed)
  | n + 1, st, changed =>
      let r := snapshotScan ps grOf n st changed
      let snap := makeSnapshot ps grOf n
      if snapDiffers snap (r.1.lastSnapshots n) then
        ({ r.1 with lastSnapshots := Function.update r.1.lastSnapshots n snap }, true)
      else r

/-- SpectrumComponent::checkAndUpdateCurve: start from the pending-invalidate
flag, force a change when the active band count moved, scan the active
bands' snapshots, and rebuild the curve cache only if something changed.
The rebuild itself (rebuildCurveCache) is abstracted as `rebuild`. -/
def checkAndUpdateCurve (rebuild : CompState → CompState) (ps : ℕ → BandParams)
    (grOf : ℕ → ℚ) (active : ℤ) (st : CompState) : CompState :=
  let changed0 := st.curveNeedsUpdate
  let sc :=
    if active ≠ st.lastActiveBandCount then
      ({ st with lastActiveBandCount := active }, true)
    else (st, changed0)
  let r := snapshotScan ps grOf active.toNat sc.1 sc.2
  if r.2 then rebuild r.1 else r.1

/-- If no scanned band differs beyond tolerance, the scan is the identity. -/
theorem snapshotScan_unchanged (ps : ℕ → BandParams) (grOf : ℕ → ℚ) (n : ℕ)
    (st : CompState)
    (h : ∀ i, i < n → snapDiffers (makeSnapshot ps grOf i) (st.lastSnapshots i) = false) :
    snapshotScan ps grOf n st false = (st, false) := by
  induction n with
  | zero => rfl
  | succ n ih =>
      have hr : snapshotScan ps grOf n st false = (st, false) :=
        ih (fun i hi => h i (by omega))
      simp only [snapshotScan, hr, h n (by omega)]
      simp

/-- C9: if the active band count is unchanged, no invalidation is pending,
and for every active band every tracked snapshot field matches the stored
snapshot exactly while the gain-reduction field differs by at most 0.05 dB,
then checkAndUpdateCurve performs no rebuild and leaves the component state —
in particular the cached per-band and aggregate curve arrays and the stored
snapshots — unchanged, for every possible rebuild function. -/
theorem checkAndUpdateCurve_no_rebuild (rebuild : CompState → CompState)
    (ps : ℕ → BandParams) (grOf : ℕ → ℚ) (active : ℤ) (st : CompState)
    (hflag : st.curveNeedsUpdate = false)
    (hact : active = st.lastActiveBandCount)
    (hsame : ∀ i, i < active.toNat →
        (makeSnapshot ps grOf i).freq = (st.lastSnapshots i).freq ∧
        (makeSnapshot ps grOf i).gain = (st.lastSnapshots i).gain ∧
        (makeSnapshot ps grOf i).q = (st.lastSnapshots i).q ∧
        (makeSnapshot ps grOf i).type = (st.lastSnapshots i).type ∧
        (makeSnapshot ps grOf i).enabled = (st.lastSnapshots i).enabled ∧
        (makeSnapshot ps grOf i).dynamic = (st.lastSnapshots i).dynamic ∧
        |(makeSnapshot ps grOf i).gr - (st.lastSnapshots i).gr| ≤ 1 / 20) :
    checkAndUpdateCurve rebuild ps grOf active st = st := by
  have hnd : ∀ i, i < active.toNat →
      snapDiffers (makeSnapshot ps grOf i) (st.lastSnapshots i) = false := by
    intro i hi
    obtain ⟨h1, h2, h3, h4, h5, h6, h7⟩ := hsame i hi
    have h7' : ¬ ((1 : ℚ) / 20 < |(makeSnapshot ps grOf i).gr - (st.lastSnapshots i).gr|) :=
      not_lt.mpr h7
    simp [snapDiffers, h1, h2, h3, h4, h5, h6, h7']
    linarith [h7]
  have hscan := snapshotScan_unchanged ps grOf active.toNat st hnd
  simp only [checkAndUpdateCurve, if_neg (by simp [hact] : ¬ active ≠ st.lastActiveBandCount),
    hflag, hscan]
  simp

/-- Concrete parameter store, gain reductions and component state for the C9
witness: the stored snapshots are exactly the ones the scan would rebuild. -/
def exCompState : CompState :=
  { lastSnapshots := fun i => makeSnapshot (fun _ => {}) (fun _ => 0) i
    lastActiveBandCount := 2
    curveNeedsUpdate := false
    cachedBandMagnitudes := fun _ _ => 3
    cachedTotalMagnitude := fun _ => 3
    curveFrequencies := fun _ => 1000 }

/-- Witness for C9: with matching snapshots and unchanged count, the curve
check leaves the concrete component state untouched even though the rebuild
function would visibly change it. -/
theorem checkAndUpdateCurve_no_rebuild_witness :
    checkAndUpdateCurve (fun c => { c with curveNeedsUpdate := true })
        (fun _ => {}) (fun _ => 0) 2 exCompState = exCompState := by
  have h := checkAndUpdateCurve_no_rebuild (fun c => { c with curveNeedsUpdate := true })
    (fun _ => {}) (fun _ => 0) 2 exCompState rfl rfl
    (fun i _ => ⟨rfl, rfl, rfl, rfl, rfl, rfl, by norm_num [exCompState]⟩)
  exact h

end DynamicEQ
